import Mathlib

/-!
# A verification development for the rlispi interpreter

This file gives a shallow embedding of the evaluator of the rlispi Lisp
interpreter (`src/eval.rs` together with the value type of `src/value.rs`)
and proves properties of it.

Modelling conventions:

* `Value` mirrors the Rust `Value` enum.  The Rust `Function` struct holds a
  `name : String` and an `Rc<dyn Fn>`; the callable is defunctionalised into
  `FnImpl`: one constructor per native builtin registered by `Context::new`,
  plus `closure` for the functions produced by `fn` (which capture exactly the
  parameter names, the unevaluated body, and a clone of the local map, as the
  Rust closure in `CoreEnv::lambda_fn` does).  `Uuid::new_v4()` names for
  closures are modelled by the fixed string "uuid-v4"; nothing proved here
  depends on closure names.
* The Rust `HashMap<String, Value>` is observed only through `get` and
  `insert`, so it is modelled as an association list where `insert` replaces
  any previous entry for the key.
* `Context` mirrors the Rust struct: a global map `bindings` (behind an
  `Rc`) and a per-frame `local` map (renamed `localEnv`; `local` is a Lean
  keyword).  Rust mutates the context through `&mut`; here evaluation threads
  the updated context explicitly, and `Res.ok`/`Res.err` carry the context as
  it stands when the result propagates.
* `CoreEnv::def` mutates the global map via
  `Rc::get_mut(&mut ctx.bindings).unwrap()`, which panics unless the `Rc` is
  uniquely owned.  The only place the `Rc` is cloned is the creation of
  `local_ctx` during closure application (`eval.rs` line 118), and that clone
  lives for the whole application (argument evaluation, body evaluation and
  the trampoline).  Therefore the handle is shared exactly while at least one
  closure application is on the stack.  Evaluation carries that fact as the
  boolean `sh` ("the bindings Rc is shared"): the driver starts with
  `sh = false`, every evaluation inside a closure application runs with
  `sh = true`, and `def` yields `Res.rustPanic` when `sh = true`.
* Rust recursion can diverge (e.g. an infinite `recur` loop), so the
  evaluator takes a fuel parameter bounding the recursion depth;
  `Res.timeout` means the fuel ran out and corresponds to no Rust outcome.
* `import` performs file I/O, which a pure embedding cannot do: evaluating a
  well-formed `import` call stops with `Res.ioUnmodelled path`.  The loop
  that `CoreEnv::import` runs after a successful read and parse ("evaluate
  every parsed top-level form in the current context, then return Nil",
  `eval.rs` lines 179-184) is modelled by `Job.jSeq` / `evalFileForms`.
* Rust `i64` values are `Int`s kept in `[-2^63, 2^63)`: `OpsEnv::add`'s
  `result += value` is two's-complement `i64` addition, modelled as
  `wrap64 (acc + v)` — the release-build wrapping semantics.  (A debug build
  panics at the very same overflowing additions; either way the unbounded
  mathematical sum is not what the program computes once it leaves the
  `i64` range.)
* Error messages are the Rust format strings with `{}`/`{:?}` holes filled by
  `fmtValue`, a rendering of the derived `Debug` instance.
-/

namespace RLispi

mutual

/-- The `Value` enum of `src/value.rs` (also `eval.rs` uses it): booleans,
nil, 64-bit signed integers, lists, functions, symbols and strings.  An
`i64` is modelled as an `Int` in the range `[-2^63, 2^63)`: parsing only
produces in-range literals, and the one arithmetic operation of the
interpreter (`OpsEnv::add`) reduces its result into that range with
`wrap64`, so every `integer` the evaluator constructs stays in range and
`Int` equality and printing agree with `i64` on them.  A function is a name
plus a callable; the callable is defunctionalised as `FnImpl`. -/
inductive Value where
  | bool : Bool → Value
  | nil : Value
  | integer : Int → Value
  | vlist : List Value → Value
  | function : String → FnImpl → Value
  | symbol : String → Value
  | vstring : String → Value

/-- The callables that can occur behind `Value.function`: the native builtins
registered by `Context::new` (`OpsEnv`, `CoreEnv`, `ListEnv` in `eval.rs`),
and closures produced by `CoreEnv::lambda_fn`, which capture the parameter
names (`bindings : Vec<String>`), the unevaluated body, and a clone of the
defining local map (`local_copy`). -/
inductive FnImpl where
  | addF | eqF | defF | ifF | fnF | importF | listF | firstF | restF | consF | emptyF : FnImpl
  | closure : List String → Value → List (String × Value) → FnImpl

end

/-- The Rust `Context` (`eval.rs` lines 11-15): `bindings` is the global map
(behind an `Rc`), `localEnv` the per-frame local map (Rust field `local`). -/
structure Context where
  bindings : List (String × Value)
  localEnv : List (String × Value)

/-- Rust `HashMap::get`: first entry for the key, if any. -/
def lookupVar : List (String × Value) → String → Option Value
  | [], _ => none
  | (k, v) :: rest, key => if k = key then some v else lookupVar rest key

/-- Helper for `insertVar`: drop any existing entries for the key. -/
def eraseKey : List (String × Value) → String → List (String × Value)
  | [], _ => []
  | (k, v) :: rest, key => if k = key then eraseKey rest key else (k, v) :: eraseKey rest key

/-- Rust `HashMap::insert`: the map afterwards sends `key` to `v` and every other
key to its previous value. -/
def insertVar (m : List (String × Value)) (key : String) (v : Value) : List (String × Value) :=
  (key, v) :: eraseKey m key

/-- Rust `Context::resolve` (`eval.rs` lines 287-295): local map first, then the
global map, `None` if absent from both. -/
def Context.resolve (c : Context) (key : String) : Option Value :=
  match lookupVar c.localEnv key with
  | some v => some v
  | none => lookupVar c.bindings key

mutual

/-- The derived `PartialEq` of `Value`: structural on atoms and lists;
`Function`s compare by name only (`value.rs` lines 21-25). -/
def valueEq : Value → Value → Bool
  | .bool a, .bool b => a == b
  | .nil, .nil => true
  | .integer a, .integer b => a == b
  | .vlist a, .vlist b => valueListEq a b
  | .function n1 _, .function n2 _ => n1 == n2
  | .symbol a, .symbol b => a == b
  | .vstring a, .vstring b => a == b
  | _, _ => false

/-- Elementwise equality of `Value` lists. -/
def valueListEq : List Value → List Value → Bool
  | [], [] => true
  | a :: as', b :: bs' => valueEq a b && valueListEq as' bs'
  | _, _ => false

end

mutual

/-- Rendering of the derived `Debug` instance of `Value`, used to fill the
`{:?}` holes of the Rust error format strings.  No claim depends on the
precise text produced here. -/
def fmtValue : Value → String
  | .bool b => "Bool(" ++ toString b ++ ")"
  | .nil => "Nil"
  | .integer n => "Integer(" ++ toString n ++ ")"
  | .vlist es => "List([" ++ fmtValues es ++ "])"
  | .function n _ => "Function(\"" ++ n ++ "\")"
  | .symbol s => "Symbol(\"" ++ s ++ "\")"
  | .vstring s => "String(\"" ++ s ++ "\")"

/-- Comma-separated rendering of a list of values. -/
def fmtValues : List Value → String
  | [] => ""
  | [v] => fmtValue v
  | v :: rest => fmtValue v ++ ", " ++ fmtValues rest

end

/-- Debug rendering of an argument list. -/
def fmtArgs (args : List Value) : String :=
  "[" ++ fmtValues args ++ "]"

/-- Two's-complement reduction into the `i64` range `[-2^63, 2^63)`: the
value of a Rust `i64` addition that wrapped (release build; a debug build
panics at the same additions).  `wrap64 x = x` exactly when `x` is already
in range. -/
def wrap64 (x : Int) : Int := (x + 2 ^ 63) % 2 ^ 64 - 2 ^ 63

/-- The check `elements.first() == Some(Value::Symbol(name)) && name == "recur"`
performed both by `eval` (`eval.rs` lines 322-327) and by the closure
trampoline (`eval.rs` lines 132-133). -/
def isRecurHead : List Value → Bool
  | .symbol name :: _ => name == "recur"
  | _ => false

/-- A `Value` that is a list whose head is the symbol `recur`. -/
def recurHeaded : Value → Bool
  | .vlist es => isRecurHead es
  | _ => false

/-- Outcome of an evaluation step.  `ok`/`err` are the Rust
`Result<Value, String>`, each carrying the context as mutated so far (Rust
mutates through `&mut`).  `rustPanic` is the process abort caused by
`Rc::get_mut(..).unwrap()` in `CoreEnv::def` when the bindings handle is
shared.  `ioUnmodelled` marks a well-formed `import` call reaching file I/O,
which this embedding does not perform.  `timeout` means the fuel ran out. -/
inductive Res where
  | ok : Context → Value → Res
  | err : Context → String → Res
  | rustPanic : Res
  | ioUnmodelled : Context → String → Res
  | timeout : Res

/-- The parameter-list check of `CoreEnv::lambda_fn` (`eval.rs` lines
95-105): every element must be a symbol. -/
def paramNames : List Value → Except String (List String)
  | [] => .ok []
  | .symbol name :: rest =>
      match paramNames rest with
      | .ok names => .ok (name :: names)
      | .error e => .error e
  | other :: _ => .error ("Function arguments must be symbols, got " ++ fmtValue other ++ ".")

/-- The work items of the evaluator.  `jEval` is `eval`; `jApply` is the call
`fun(ctx, elements)`; the remaining constructors are the `for` loops of the
builtins, which the fuelled recursion needs as explicit states:
`jAddLoop` (loop of `OpsEnv::add`), `jEqLoop` (loop of `OpsEnv::eq`),
`jListLoop` (loop of `ListEnv::list`), `jArgsBind` (argument
evaluation/binding loop of the closure, `eval.rs` lines 121-124), `jTramp`
(the tail-call trampoline `loop`, lines 129-158), `jRecurArgs` (evaluation of
the `recur` arguments, lines 139-148), and `jSeq` (the per-form loop of
`CoreEnv::import`, lines 179-181).  Every job carries the contexts it works
on; the `sh` flag records whether the bindings `Rc` is currently shared
(inside a closure application it always is, so the jobs that only ever run
there carry no flag). -/
inductive Job where
  | jEval : Bool → Context → Value → Job
  | jApply : Bool → Context → FnImpl → List Value → Job
  | jAddLoop : Bool → Context → List Value → Int → Job
  | jEqLoop : Bool → Context → Value → List Value → Job
  | jListLoop : Bool → Context → List Value → List Value → Job
  | jArgsBind : List String → Value → Context → Context → List (String × Value) → Job
  | jTramp : List String → Context → Value → Job
  | jRecurArgs : List String → Value → Context → List Value → List Value → Job
  | jSeq : Bool → Context → List Value → Job

/-- The evaluator of `src/eval.rs`, as a single fuelled function over `Job`.
Fuel decreases by one on every nested evaluation step; `Res.timeout` (fuel
exhausted) corresponds to no Rust outcome — the Rust evaluator simply keeps
running.  Case by case:

* `jEval` is `eval` (lines 312-339): symbols resolve through the context,
  a list whose head is the symbol `recur` is returned verbatim, an empty
  list is an error, any other list evaluates its head, which must produce a
  function that is then applied to the unevaluated remaining elements, and
  every other value evaluates to itself.
* `jApply` dispatches on the callable exactly as the registered Rust
  functions do: `addF` = `OpsEnv::add`, `eqF` = `OpsEnv::eq`,
  `defF` = `CoreEnv::def` (with the `Rc::get_mut(..).unwrap()` panic when
  the handle is shared), `ifF` = `CoreEnv::if_fn` (the pop-pattern
  `(Some, Some, fb, None)` accepts exactly 2 or 3 arguments), `fnF` =
  `CoreEnv::lambda_fn` (builds a closure; does not evaluate the body),
  `importF` = `CoreEnv::import` up to the file read, `listF`/`firstF`/
  `restF`/`consF`/`emptyF` = `ListEnv`, and `closure` = the application
  protocol of `lambda_fn` (lines 107-160): arity check, fresh local context
  from the captured snapshot, argument binding, trampoline; the caller's
  context receives any mutation made while evaluating the arguments, and
  the local context is dropped afterwards.
* the loop jobs are the corresponding `for`/`loop` bodies. -/
def run : Nat → Job → Res
  | 0, _ => .timeout
  | fuel + 1, job =>
    match job with
    | .jEval sh c v =>
      match v with
      | .symbol name =>
        match c.resolve name with
        | some val => .ok c val
        | none => .err c ("Can't resolve symbol '" ++ name ++ "'")
      | .vlist elements =>
        if isRecurHead elements then .ok c (.vlist elements)
        else
          match elements with
          | [] => .err c "Can't evaluate empty list"
          | head :: args =>
            match run fuel (.jEval sh c head) with
            | .ok c' (.function _ impl) => run fuel (.jApply sh c' impl args)
            | .ok c' other => .err c' ("Value " ++ fmtValue other ++ " is not a function")
            | r => r
      | other => .ok c other
    | .jApply sh c impl args =>
      match impl with
      | .addF => run fuel (.jAddLoop sh c args 0)
      | .eqF =>
        match args with
        | [] => .err c "Function '=' called without arguments"
        | first :: rest =>
          match run fuel (.jEval sh c first) with
          | .ok c' v => run fuel (.jEqLoop sh c' v rest)
          | r => r
      | .defF =>
        if args.length = 2 then
          match args with
          | .symbol name :: valNode :: _ =>
            match run fuel (.jEval sh c valNode) with
            | .ok c' v =>
              if sh then .rustPanic
              else .ok { c' with bindings := insertVar c'.bindings name v } .nil
            | r => r
          | other :: _ =>
            .err c ("'def' first argument must by symbol, got: " ++ fmtValue other)
          | [] => .err c ("Invalid arguments for def: " ++ fmtArgs args)
        else .err c ("Invalid arguments for def: " ++ fmtArgs args)
      | .ifF =>
        match args with
        | [condition, trueBranch] =>
          match run fuel (.jEval sh c condition) with
          | .ok c' (.bool false) => .ok c' .nil
          | .ok c' .nil => .ok c' .nil
          | .ok c' _ => run fuel (.jEval sh c' trueBranch)
          | r => r
        | [condition, trueBranch, falseBranch] =>
          match run fuel (.jEval sh c condition) with
          | .ok c' (.bool false) => run fuel (.jEval sh c' falseBranch)
          | .ok c' .nil => run fuel (.jEval sh c' falseBranch)
          | .ok c' _ => run fuel (.jEval sh c' trueBranch)
          | r => r
        | _ => .err c "Function 'if' requires 2 or 3 arguments"
      | .fnF =>
        match args with
        | [.vlist argBindings, body] =>
          match paramNames argBindings with
          | .ok names => .ok c (.function "uuid-v4" (.closure names body c.localEnv))
          | .error e => .err c e
        | _ => .err c "'fn' has form (fn (arg1 arg2 ...) body)"
      | .importF =>
        if args.length = 1 then
          match args with
          | .vstring path :: _ => .ioUnmodelled c path
          | other :: _ =>
            .err c ("Expected string as argument to 'import', got: Some(" ++ fmtValue other ++ ")")
          | [] => .err c "Import form expects 1 path argument"
        else .err c "Import form expects 1 path argument"
      | .listF => run fuel (.jListLoop sh c args [])
      | .firstF =>
        if args.length = 1 then
          match args with
          | arg :: _ =>
            match run fuel (.jEval sh c arg) with
            | .ok c' (.vlist (elem :: _)) => .ok c' elem
            | .ok c' (.vlist []) => .err c' "Function 'first' requires non-empty list"
            | .ok c' _ => .err c' "Only list is supported for 'first' function"
            | r => r
          | [] => .err c "Function 'first' requires 1 argument"
        else .err c "Function 'first' requires 1 argument"
      | .restF =>
        if args.length = 1 then
          match args with
          | arg :: _ =>
            match run fuel (.jEval sh c arg) with
            | .ok c' (.vlist []) => .err c' "Function 'rest' requires non-empty list"
            | .ok c' (.vlist (_ :: tail)) => .ok c' (.vlist tail)
            | .ok c' other => .ok c' other
            | r => r
          | [] => .err c "Function 'rest' requires 1 argument"
        else .err c "Function 'rest' requires 1 argument"
      | .consF =>
        if args.length = 2 then
          match args with
          | a1 :: a2 :: _ =>
            match run fuel (.jEval sh c a1) with
            | .ok c1 headVal =>
              match run fuel (.jEval sh c1 a2) with
              | .ok c2 (.vlist elements) => .ok c2 (.vlist (headVal :: elements))
              | .ok c2 _ => .err c2 "Only list is supported for 'cons' function 2nd argument"
              | r => r
            | r => r
          | _ => .err c "Function 'cons' requires 2 arguments"
        else .err c "Function 'cons' requires 2 arguments"
      | .emptyF =>
        if args.length = 1 then
          match args with
          | arg :: _ =>
            match run fuel (.jEval sh c arg) with
            | .ok c' (.vlist elements) => .ok c' (.bool elements.isEmpty)
            | .ok c' _ => .err c' "Only list is supported for 'empty' function"
            | r => r
          | [] => .err c "Function 'empty' requires 1 argument"
        else .err c "Function 'empty' requires 1 argument"
      | .closure params body localCopy =>
        if params.length = args.length then
          run fuel (.jArgsBind params body c { bindings := c.bindings, localEnv := localCopy }
            (params.zip args))
        else
          .err c ("Wrong number of arguments, expected " ++ toString params.length ++
            ", got " ++ toString args.length)
    | .jAddLoop sh c args acc =>
      match args with
      | [] => .ok c (.integer acc)
      | arg :: rest =>
        match run fuel (.jEval sh c arg) with
        | .ok c' (.integer v) => run fuel (.jAddLoop sh c' rest (wrap64 (acc + v)))
        | .ok c' other => .err c' ("Calling function '+' with arg: " ++ fmtValue other)
        | r => r
    | .jEqLoop sh c refVal args =>
      match args with
      | [] => .ok c (.bool true)
      | arg :: rest =>
        match run fuel (.jEval sh c arg) with
        | .ok c' v =>
          if valueEq refVal v then run fuel (.jEqLoop sh c' refVal rest)
          else .ok c' (.bool false)
        | r => r
    | .jListLoop sh c args acc =>
      match args with
      | [] => .ok c (.vlist acc)
      | arg :: rest =>
        match run fuel (.jEval sh c arg) with
        | .ok c' v => run fuel (.jListLoop sh c' rest (acc ++ [v]))
        | r => r
    | .jArgsBind params body cCaller cLocal pending =>
      match pending with
      | [] =>
        match run fuel (.jTramp params cLocal body) with
        | .ok _ v => .ok cCaller v
        | .err _ m => .err cCaller m
        | r => r
      | (name, argNode) :: rest =>
        match run fuel (.jEval true cCaller argNode) with
        | .ok cCaller' v =>
          run fuel (.jArgsBind params body cCaller'
            { cLocal with localEnv := insertVar cLocal.localEnv name v } rest)
        | r => r
    | .jTramp params cLocal body =>
      match run fuel (.jEval true cLocal body) with
      | .ok c' (.vlist elements) =>
        if isRecurHead elements then
          match elements with
          | _ :: recurArgs =>
            if recurArgs.length = params.length then
              run fuel (.jRecurArgs params body c' recurArgs [])
            else
              .err c' ("Wrong number of arguments passed to 'recur'. Expected " ++
                toString params.length ++ ", got " ++ toString recurArgs.length)
          | [] => .ok c' (.vlist elements)
        else .ok c' (.vlist elements)
      | .ok c' other => .ok c' other
      | r => r
    | .jRecurArgs params body cLocal pending acc =>
      match pending with
      | [] =>
        run fuel (.jTramp params
          { cLocal with localEnv :=
              (params.zip acc).foldl (fun env p => insertVar env p.1 p.2) cLocal.localEnv }
          body)
      | argNode :: rest =>
        match run fuel (.jEval true cLocal argNode) with
        | .ok c' v => run fuel (.jRecurArgs params body c' rest (acc ++ [v]))
        | r => r
    | .jSeq sh c forms =>
      match forms with
      | [] => .ok c .nil
      | form :: rest =>
        match run fuel (.jEval sh c form) with
        | .ok c' _ => run fuel (.jSeq sh c' rest)
        | r => r

/-- The global table built by `Context::new` (`eval.rs` lines 274-286):
`nil`, `true`, `false`, then the `CoreEnv`, `OpsEnv` and `ListEnv`
builtins.  All keys are distinct, so the entry order is unobservable. -/
def baseBindings : List (String × Value) :=
  [ ("nil", .nil)
  , ("true", .bool true)
  , ("false", .bool false)
  , ("def", .function "def" .defF)
  , ("if", .function "if" .ifF)
  , ("fn", .function "fn" .fnF)
  , ("import", .function "import" .importF)
  , ("+", .function "+" .addF)
  , ("=", .function "=" .eqF)
  , ("list", .function "list" .listF)
  , ("first", .function "first" .firstF)
  , ("rest", .function "rest" .restF)
  , ("cons", .function "cons" .consF)
  , ("empty?", .function "empty?" .emptyF)
  ]

/-- The freshly created top-level context: `Context::new()`.  At this point
the bindings `Rc` is uniquely owned, so top-level evaluation runs with
`sh = false`. -/
def ctx0 : Context := { bindings := baseBindings, localEnv := [] }

/-- Top-level evaluation of one form, as the REPL driver performs it:
`eval(&mut context, elem)` with the bindings handle uniquely owned. -/
def evalTop (fuel : Nat) (c : Context) (v : Value) : Res :=
  run fuel (.jEval false c v)

/-- The loop `CoreEnv::import` runs after `File::open`/`read_to_string` and
`Parser::parse_next` have succeeded (`eval.rs` lines 179-184): evaluate every
parsed top-level form, in order, in the current context, propagating the
first error; return Nil if all succeed.  Here `forms` stands for the parse
result of the file named in the call. -/
def evalFileForms (fuel : Nat) (c : Context) (forms : List Value) : Res :=
  run fuel (.jSeq false c forms)


/-- Unfolding of one evaluation step on a symbol (`eval.rs` lines 314-320). -/
theorem run_symbol (f : Nat) (sh : Bool) (c : Context) (name : String) :
    run (f + 1) (.jEval sh c (.symbol name)) =
      (match c.resolve name with
       | some val => .ok c val
       | none => .err c ("Can't resolve symbol '" ++ name ++ "'")) := rfl

/-- A value already in the `i64` range is fixed by `wrap64`. -/
theorem wrap64_eq_self (x : Int) (h1 : -2 ^ 63 ≤ x) (h2 : x < 2 ^ 63) : wrap64 x = x := by
  unfold wrap64
  omega

/-- Every `wrap64` result lies in the `i64` range. -/
theorem wrap64_range (x : Int) : -2 ^ 63 ≤ wrap64 x ∧ wrap64 x < 2 ^ 63 := by
  unfold wrap64
  omega

/-- Wrapping additions compose: reducing an addend first does not change the
wrapped sum (two's-complement congruence). -/
theorem wrap64_add_left (x y : Int) : wrap64 (wrap64 x + y) = wrap64 (x + y) := by
  unfold wrap64
  omega

/-- C6: evaluating a non-empty list form whose first element is the symbol
`recur` returns that list unevaluated and verbatim, in any context — not an
error (`eval.rs` lines 321-327). -/
theorem recur_verbatim (fuel : Nat) (sh : Bool) (c : Context) (rest : List Value) :
    run (fuel + 1) (.jEval sh c (.vlist (.symbol "recur" :: rest))) =
      .ok c (.vlist (.symbol "recur" :: rest)) := by
  simp [run, isRecurHead]

/-- C2 counterexample: `(rest 5)` does not fail with a wrong-type error; the
non-list value is returned unchanged (`ListEnv::rest` has no else-branch for
the non-list case, `eval.rs` lines 229-234). -/
theorem rest_non_list_counterexample :
    evalTop 8 ctx0 (.vlist [.symbol "rest", .integer 5]) = .ok ctx0 (.integer 5) := rfl

/-- C2 amended: `rest` requires exactly 1 argument; on a non-empty list it
returns the tail; on an empty list it errors; and on any non-list evaluated
value it returns that value unchanged (no wrong-type error). -/
theorem rest_apply_spec :
    (∀ fuel sh c e c' v, run fuel (.jEval sh c e) = .ok c' v →
      run (fuel + 1) (.jApply sh c .restF [e]) =
        (match v with
         | .vlist [] => .err c' "Function 'rest' requires non-empty list"
         | .vlist (_ :: tail) => .ok c' (.vlist tail)
         | other => .ok c' other)) ∧
    (∀ fuel sh c args, args.length ≠ 1 →
      run (fuel + 1) (.jApply sh c .restF args) =
        .err c "Function 'rest' requires 1 argument") := by
  constructor
  · intro fuel sh c e c' v h
    simp only [run, List.length_cons, List.length_nil, Nat.zero_add, if_pos rfl]
    rw [h]
    cases v with
    | vlist es => cases es <;> rfl
    | _ => rfl
  · intro fuel sh c args h
    simp only [run, if_neg h]

/-- C2 witness: applying `rest` to an argument evaluating to the empty list
errors, per the amended description. -/
theorem rest_apply_spec_witness :
    run 4 (.jApply false ctx0 .restF [.vlist [.symbol "list"]]) =
      .err ctx0 "Function 'rest' requires non-empty list" := by
  have h : run 3 (.jEval false ctx0 (.vlist [.symbol "list"])) = .ok ctx0 (.vlist []) := rfl
  exact rest_apply_spec.1 3 false ctx0 _ ctx0 (.vlist []) h


/-- C8 counterexample: `(+ 9223372036854775807 1)` — both addends valid
`i64` literals — does not yield `Integer (a + b)`: the `i64` accumulator of
`OpsEnv::add` wraps to `i64::MIN` (a debug build panics at the same
addition), so the result differs from the mathematical sum `2^63`. -/
theorem add_overflow_counterexample :
    evalTop 8 ctx0 (.vlist [.symbol "+", .integer 9223372036854775807, .integer 1]) =
      .ok ctx0 (.integer (-9223372036854775808)) ∧
    (Value.integer (-9223372036854775808) : Value) ≠
      .integer (9223372036854775807 + 1) := by
  refine ⟨rfl, fun h => ?_⟩
  simp only [Value.integer.injEq] at h
  omega

/-- C8 amended: for `i64`-representable `a`, `(+ a b)` yields the wrapped
`i64` sum `wrap64 (a + b)` — in particular the mathematical sum `a + b`
whenever it fits in `i64`; `(+)` with no arguments yields `Integer 0`; and
the summing loop of `OpsEnv::add` errors as soon as an argument evaluates to
a non-integer (`eval.rs` lines 20-33). -/
theorem add_spec :
    (∀ a b : Int, -2 ^ 63 ≤ a → a < 2 ^ 63 →
      evalTop 8 ctx0 (.vlist [.symbol "+", .integer a, .integer b]) =
        .ok ctx0 (.integer (wrap64 (a + b)))) ∧
    (∀ a b : Int, -2 ^ 63 ≤ a → a < 2 ^ 63 → -2 ^ 63 ≤ a + b → a + b < 2 ^ 63 →
      evalTop 8 ctx0 (.vlist [.symbol "+", .integer a, .integer b]) =
        .ok ctx0 (.integer (a + b))) ∧
    (evalTop 8 ctx0 (.vlist [.symbol "+"]) = .ok ctx0 (.integer 0)) ∧
    (∀ fuel sh c acc e rest c' v, run fuel (.jEval sh c e) = .ok c' v →
      (∀ m : Int, v ≠ .integer m) →
      run (fuel + 1) (.jAddLoop sh c (e :: rest) acc) =
        .err c' ("Calling function '+' with arg: " ++ fmtValue v)) := by
  have key : ∀ a b : Int, -2 ^ 63 ≤ a → a < 2 ^ 63 →
      evalTop 8 ctx0 (.vlist [.symbol "+", .integer a, .integer b]) =
        .ok ctx0 (.integer (wrap64 (a + b))) := by
    intro a b h1 h2
    have h : evalTop 8 ctx0 (.vlist [.symbol "+", .integer a, .integer b]) =
        .ok ctx0 (.integer (wrap64 (wrap64 (0 + a) + b))) := rfl
    have e1 : wrap64 (0 + a) = a := by
      rw [Int.zero_add]
      exact wrap64_eq_self a h1 h2
    rw [e1] at h
    exact h
  refine ⟨key, fun a b h1 h2 h3 h4 => ?_, rfl,
    fun fuel sh c acc e rest c' v h hnot => ?_⟩
  · have h := key a b h1 h2
    rw [wrap64_eq_self (a + b) h3 h4] at h
    exact h
  · simp only [run]
    rw [h]
    cases v with
    | integer m => exact absurd rfl (hnot m)
    | _ => rfl

/-- C8 witness: `(+ 1 2)` yields `Integer 3` through the in-range part, and
`(+ 1 nil)`'s loop errors because `nil` is not an integer. -/
theorem add_spec_witness :
    evalTop 8 ctx0 (.vlist [.symbol "+", .integer 1, .integer 2]) =
      .ok ctx0 (.integer 3) ∧
    run 2 (.jAddLoop false ctx0 [.nil] 1) =
      .err ctx0 ("Calling function '+' with arg: " ++ fmtValue .nil) := by
  constructor
  · have h := add_spec.2.1 1 2 (by norm_num) (by norm_num) (by norm_num) (by norm_num)
    exact h
  · exact add_spec.2.2.2 1 false ctx0 1 .nil [] ctx0 .nil rfl (fun m h => by cases h)

/-- C10: `(= e)` with a single argument returns `Bool true` for every value
the argument evaluates to — with no comparands beyond the reference value the
loop of `OpsEnv::eq` (`eval.rs` lines 34-45) never runs, so equality
vacuously succeeds. -/
theorem eq_single_arg_true (fuel : Nat) (sh : Bool) (c : Context) (e : Value)
    (c' : Context) (v : Value)
    (h : run (fuel + 1) (.jEval sh c e) = .ok c' v)
    (hres : c.resolve "=" = some (.function "=" .eqF)) :
    run (fuel + 3) (.jEval sh c (.vlist [.symbol "=", e])) = .ok c' (.bool true) := by
  have h1 : run (fuel + 3) (.jEval sh c (.vlist [.symbol "=", e])) =
      (match run (fuel + 2) (.jEval sh c (.symbol "=")) with
       | .ok c2 (.function _ impl) => run (fuel + 2) (.jApply sh c2 impl [e])
       | .ok c2 other => .err c2 ("Value " ++ fmtValue other ++ " is not a function")
       | r => r) := rfl
  have h2 : run (fuel + 2) (.jEval sh c (.symbol "=")) = .ok c (.function "=" .eqF) := by
    have h' := run_symbol (fuel + 1) sh c "="
    rw [hres] at h'
    exact h'
  rw [h1, h2]
  have h3 : run (fuel + 2) (.jApply sh c .eqF [e]) =
      (match run (fuel + 1) (.jEval sh c e) with
       | .ok c2 v2 => run (fuel + 1) (.jEqLoop sh c2 v2 [])
       | r => r) := rfl
  show run (fuel + 2) (.jApply sh c .eqF [e]) = _
  rw [h3, h]
  rfl

/-- C10 witness: `(= nil)` evaluates to `Bool true` in the initial context. -/
theorem eq_single_arg_true_witness :
    run 4 (.jEval false ctx0 (.vlist [.symbol "=", .nil])) = .ok ctx0 (.bool true) := by
  exact eq_single_arg_true 0 false ctx0 .nil ctx0 .nil rfl rfl


/-- C5: `if` evaluates its condition; exactly `Bool false` and `Nil` select
the else-branch (or yield `Nil` when it is absent), every other value —
`Integer 0` and the empty list included — selects the then-branch; any
argument count other than 2 or 3 is an arity error (`CoreEnv::if_fn`,
`eval.rs` lines 74-90). -/
theorem if_spec :
    (∀ fuel sh c cond tb eb c' v,
      run fuel (.jEval sh c cond) = .ok c' v →
      v = .bool false ∨ v = .nil →
      run (fuel + 1) (.jApply sh c .ifF [cond, tb, eb]) = run fuel (.jEval sh c' eb) ∧
      run (fuel + 1) (.jApply sh c .ifF [cond, tb]) = .ok c' .nil) ∧
    (∀ fuel sh c cond tb eb c' v,
      run fuel (.jEval sh c cond) = .ok c' v →
      v ≠ .bool false → v ≠ .nil →
      run (fuel + 1) (.jApply sh c .ifF [cond, tb, eb]) = run fuel (.jEval sh c' tb) ∧
      run (fuel + 1) (.jApply sh c .ifF [cond, tb]) = run fuel (.jEval sh c' tb)) ∧
    (∀ fuel sh c (args : List Value), args.length ≠ 2 → args.length ≠ 3 →
      run (fuel + 1) (.jApply sh c .ifF args) =
        .err c "Function 'if' requires 2 or 3 arguments") := by
  refine ⟨fun fuel sh c cond tb eb c' v h hv => ?_,
    fun fuel sh c cond tb eb c' v h h1 h2 => ?_,
    fun fuel sh c args h2 h3 => ?_⟩
  · rcases hv with rfl | rfl <;> exact ⟨by simp only [run]; rw [h], by simp only [run]; rw [h]⟩
  · constructor <;>
      (simp only [run]; rw [h];
       cases v with
       | bool b => cases b with
         | false => exact absurd rfl h1
         | true => rfl
       | nil => exact absurd rfl h2
       | _ => rfl)
  · cases args with
    | nil => rfl
    | cons a t1 => cases t1 with
      | nil => rfl
      | cons b t2 => cases t2 with
        | nil => exact absurd rfl h2
        | cons c3 t3 => cases t3 with
          | nil => exact absurd rfl h3
          | cons d t4 => rfl

/-- C5 witness: `(if 0 1 2)` takes the then-branch — `Integer 0` is truthy. -/
theorem if_spec_witness :
    run 2 (.jApply false ctx0 .ifF [.integer 0, .integer 1, .integer 2]) =
      run 1 (.jEval false ctx0 (.integer 1)) :=
  (if_spec.2.1 1 false ctx0 (.integer 0) (.integer 1) (.integer 2) ctx0 (.integer 0) rfl
    (fun h => Value.noConfusion h) (fun h => Value.noConfusion h)).1

/-- C4: applying a closure first checks the argument count against the
parameter count, failing with an arity error naming both; otherwise it
builds a fresh local context from the captured snapshot and the caller's
global handle, and the binding loop evaluates each argument in the caller's
context and inserts the value positionally under the corresponding parameter
name (`CoreEnv::lambda_fn`, `eval.rs` lines 107-124). -/
theorem closure_apply_spec :
    (∀ fuel sh c ps body lc (args : List Value), args.length ≠ ps.length →
      run (fuel + 1) (.jApply sh c (.closure ps body lc) args) =
        .err c ("Wrong number of arguments, expected " ++ toString ps.length ++
          ", got " ++ toString args.length)) ∧
    (∀ fuel sh c ps body lc (args : List Value), args.length = ps.length →
      run (fuel + 1) (.jApply sh c (.closure ps body lc) args) =
        run fuel (.jArgsBind ps body c ⟨c.bindings, lc⟩ (ps.zip args))) ∧
    (∀ fuel ps body cC cL p e (rest : List (String × Value)) c' v,
      run fuel (.jEval true cC e) = .ok c' v →
      run (fuel + 1) (.jArgsBind ps body cC cL ((p, e) :: rest)) =
        run fuel (.jArgsBind ps body c' ⟨cL.bindings, insertVar cL.localEnv p v⟩ rest)) := by
  refine ⟨fun fuel sh c ps body lc args h => ?_,
    fun fuel sh c ps body lc args h => ?_,
    fun fuel ps body cC cL p e rest c' v h => ?_⟩
  · simp only [run]
    rw [if_neg (fun hh => h hh.symm)]
  · simp only [run]
    rw [if_pos h.symm]
  · simp only [run]; rw [h]

/-- C4 witness: a 1-parameter closure applied to no arguments fails with the
arity error naming expected count 1 and actual count 0. -/
theorem closure_apply_spec_witness :
    run 1 (.jApply false ctx0 (.closure ["x"] (.symbol "x") []) []) =
      .err ctx0 "Wrong number of arguments, expected 1, got 0" := by
  have h := closure_apply_spec.1 0 false ctx0 ["x"] (.symbol "x") [] []
    (fun hh => by cases hh)
  exact h

/-- C1 counterexample: evaluating `((fn () (def a 1)))` — a `def` inside the
body of an invoked closure — aborts with the `Rc::get_mut(..).unwrap()`
panic instead of binding `a` and returning `Nil`: during a closure
application the bindings handle is shared with the frame-local context
(`eval.rs` lines 63-65 and 117-120). -/
theorem def_in_closure_panics :
    evalTop 16 ctx0 (.vlist [.vlist [.symbol "fn", .vlist [],
      .vlist [.symbol "def", .symbol "a", .integer 1]]]) = .rustPanic := rfl

/-- One application step of `CoreEnv::def` on a well-formed call: the value
expression is evaluated first; then `Rc::get_mut(&mut ctx.bindings)` either
succeeds (handle uniquely owned: insert and return `Nil`) or its `unwrap`
panics (handle shared). -/
theorem run_def_step (fuel : Nat) (sh : Bool) (c : Context) (name : String) (e : Value)
    (c' : Context) (v : Value) (h : run fuel (.jEval sh c e) = .ok c' v) :
    run (fuel + 1) (.jApply sh c .defF [.symbol name, e]) =
      if sh then .rustPanic else .ok ⟨insertVar c'.bindings name v, c'.localEnv⟩ .nil := by
  have h1 : run (fuel + 1) (.jApply sh c .defF [.symbol name, e]) =
      (match run fuel (.jEval sh c e) with
       | .ok c2 v2 => if sh then Res.rustPanic
           else .ok ⟨insertVar c2.bindings name v2, c2.localEnv⟩ .nil
       | r => r) := rfl
  rw [h1, h]

/-- C1 amended: a well-formed `def` evaluates its second argument, and then —
only if the global bindings handle is uniquely owned (no closure application
on the stack) — inserts the binding into the global map and returns `Nil`;
when the handle is shared it panics.  Wrong arity and a non-symbol first
argument give the documented errors (`CoreEnv::def`, `eval.rs` lines 56-73). -/
theorem def_apply_spec :
    (∀ fuel sh c name e c' v, run fuel (.jEval sh c e) = .ok c' v →
      run (fuel + 1) (.jApply sh c .defF [.symbol name, e]) =
        if sh then .rustPanic else .ok ⟨insertVar c'.bindings name v, c'.localEnv⟩ .nil) ∧
    (∀ fuel sh c (args : List Value), args.length ≠ 2 →
      run (fuel + 1) (.jApply sh c .defF args) =
        .err c ("Invalid arguments for def: " ++ fmtArgs args)) ∧
    (∀ fuel sh c a1 a2, (∀ s, a1 ≠ .symbol s) →
      run (fuel + 1) (.jApply sh c .defF [a1, a2]) =
        .err c ("'def' first argument must by symbol, got: " ++ fmtValue a1)) := by
  refine ⟨fun fuel sh c name e c' v h => ?_,
    fun fuel sh c args h => ?_,
    fun fuel sh c a1 a2 h => ?_⟩
  · exact run_def_step fuel sh c name e c' v h
  · simp only [run, if_neg h]
  · cases a1 with
    | symbol s => exact absurd rfl (h s)
    | _ => rfl

/-- C1 witness: a top-level `(def x 5)` (handle uniquely owned) binds `x` in
the global map and returns `Nil`. -/
theorem def_apply_spec_witness :
    run 2 (.jApply false ctx0 .defF [.symbol "x", .integer 5]) =
      .ok ⟨insertVar baseBindings "x" (.integer 5), []⟩ .nil := by
  have h := def_apply_spec.1 1 false ctx0 "x" (.integer 5) ctx0 (.integer 5) rfl
  exact h


/-- The context after a top-level `(def x 5)` in the fresh context. -/
def ctxX5 : Context := ⟨insertVar baseBindings "x" (.integer 5), []⟩

/-- C7 counterexample: after `(def x 5)` succeeds, the resolution of `x`
performed by the body of `((fn (x) x) 99)` goes through an environment whose
local frame binds `x`, and yields `99`, not `5` — local parameter bindings
shadow the global mapping, so not every resolution of `x` yields the def'd
value. -/
theorem def_shadow_counterexample :
    evalTop 8 ctx0 (.vlist [.symbol "def", .symbol "x", .integer 5]) = .ok ctxX5 .nil ∧
    evalTop 16 ctxX5 (.vlist [.vlist [.symbol "fn", .vlist [.symbol "x"], .symbol "x"],
      .integer 99]) = .ok ctxX5 (.integer 99) ∧
    (Value.integer 99 : Value) ≠ .integer 5 := by
  refine ⟨rfl, rfl, fun h => ?_⟩
  simp only [Value.integer.injEq] at h
  exact absurd h (by decide)

/-- The closure value created by `(fn () x)`. -/
def getxClosure : Value := .function "uuid-v4" (.closure [] (.symbol "x") [])

/-- Context after `(def getx (fn () x))`. -/
def ctxG1 : Context := ⟨insertVar baseBindings "getx" getxClosure, []⟩

/-- Context after a further `(def x 7)`. -/
def ctxG2 : Context := ⟨insertVar ctxG1.bindings "x" (.integer 7), []⟩

/-- Context after a further `(def x 8)`. -/
def ctxG3 : Context := ⟨insertVar ctxG2.bindings "x" (.integer 8), []⟩

/-- C7 amended: after a top-level `(def x v)` succeeds, resolving `x` through
any environment sharing that global table *whose local frame does not bind
`x`* yields `v`; in particular a closure created before the `def` reads the
global table at invocation time and observes each later redefinition (the
closure captures no copy of the global mapping).  The closed part runs
`(def getx (fn () x))`, then `(def x 7)`, `(getx)`, `(def x 8)`, `(getx)`:
the closure created before either `def` of `x` sees `7` and then `8`. -/
theorem def_visibility_spec :
    (∀ fuel c name e c' v lEnv, run fuel (.jEval false c e) = .ok c' v →
      lookupVar lEnv name = none →
      run (fuel + 1) (.jApply false c .defF [.symbol name, e]) =
        .ok ⟨insertVar c'.bindings name v, c'.localEnv⟩ .nil ∧
      Context.resolve ⟨insertVar c'.bindings name v, lEnv⟩ name = some v) ∧
    (evalTop 8 ctx0 (.vlist [.symbol "def", .symbol "getx",
        .vlist [.symbol "fn", .vlist [], .symbol "x"]]) = .ok ctxG1 .nil ∧
      evalTop 8 ctxG1 (.vlist [.symbol "def", .symbol "x", .integer 7]) = .ok ctxG2 .nil ∧
      evalTop 8 ctxG2 (.vlist [.symbol "getx"]) = .ok ctxG2 (.integer 7) ∧
      evalTop 8 ctxG2 (.vlist [.symbol "def", .symbol "x", .integer 8]) = .ok ctxG3 .nil ∧
      evalTop 8 ctxG3 (.vlist [.symbol "getx"]) = .ok ctxG3 (.integer 8)) := by
  refine ⟨fun fuel c name e c' v lEnv h hl => ⟨?_, ?_⟩, rfl, rfl, rfl, rfl, rfl⟩
  · have h1 := run_def_step fuel false c name e c' v h
    rw [if_neg (by decide)] at h1
    exact h1
  · simp [Context.resolve, insertVar, lookupVar, hl]

/-- C7 witness: the general part instantiated at a fresh context:
`(def y 3)` succeeds and `y` resolves to `3` through an environment with an
unrelated local frame. -/
theorem def_visibility_spec_witness :
    run 2 (.jApply false ctx0 .defF [.symbol "y", .integer 3]) =
      .ok ⟨insertVar baseBindings "y" (.integer 3), []⟩ .nil ∧
    Context.resolve ⟨insertVar baseBindings "y" (.integer 3),
      [("z", .integer 0)]⟩ "y" = some (.integer 3) :=
  def_visibility_spec.1 1 ctx0 "y" (.integer 3) ctx0 (.integer 3)
    [("z", .integer 0)] rfl rfl

/-- Context after the first form of the C9 demonstration file. -/
def ctxA1 : Context := ⟨insertVar baseBindings "a" (.integer 1), []⟩

/-- C9: the per-form loop of `CoreEnv::import` is not atomic: each
successfully evaluated form updates the current (global) context before the
next form runs, and an error in a later form propagates together with the
context as mutated so far — earlier bindings are not rolled back
(`eval.rs` lines 179-184).  The closed part imports the two-form file
`(def a 1)  b`: the unresolved `b` aborts the import, yet `a` remains bound
to `1` in the propagated context. -/
theorem import_not_atomic :
    (∀ fuel c form rest c1 v1, run fuel (.jEval false c form) = .ok c1 v1 →
      evalFileForms (fuel + 1) c (form :: rest) = evalFileForms fuel c1 rest) ∧
    (∀ fuel c form rest c' m, run fuel (.jEval false c form) = .err c' m →
      evalFileForms (fuel + 1) c (form :: rest) = .err c' m) ∧
    (evalFileForms 8 ctx0 [.vlist [.symbol "def", .symbol "a", .integer 1], .symbol "b"] =
        .err ctxA1 "Can't resolve symbol 'b'" ∧
      Context.resolve ctxA1 "a" = some (.integer 1)) := by
  refine ⟨fun fuel c form rest c1 v1 h => ?_, fun fuel c form rest c' m h => ?_, rfl, rfl⟩
  · simp only [evalFileForms, run]
    rw [h]
  · simp only [evalFileForms, run]
    rw [h]

/-- C9 witness: a file whose single form is an unresolved symbol propagates
the resolution error out of the import loop. -/
theorem import_not_atomic_witness :
    evalFileForms 2 ctx0 [.symbol "zz"] = .err ctx0 "Can't resolve symbol 'zz'" :=
  import_not_atomic.2.1 1 ctx0 (.symbol "zz") [] ctx0 "Can't resolve symbol 'zz'" rfl


/-- The body of the spec's example summing closure:
`(if (= n 0) acc (recur (+ n -1) (+ acc n)))`. -/
def sumBody : Value :=
  .vlist [.symbol "if", .vlist [.symbol "=", .symbol "n", .integer 0], .symbol "acc",
    .vlist [.symbol "recur",
      .vlist [.symbol "+", .symbol "n", .integer (-1)],
      .vlist [.symbol "+", .symbol "acc", .symbol "n"]]]

/-- The closure form `(fn (n acc) (if (= n 0) acc (recur (+ n -1) (+ acc n))))`. -/
def sumFn : Value := .vlist [.symbol "fn", .vlist [.symbol "n", .symbol "acc"], sumBody]

/-- The example call applying the summing closure to `n` and `0`. -/
def sumProg (n : Nat) : Value := .vlist [sumFn, .integer (Int.ofNat n), .integer 0]

/-- The equivalent non-tail recursive sum: `sumRec n = n + (n-1) + ... + 1 + 0`. -/
def sumRec : Nat → Int
  | 0 => 0
  | k + 1 => Int.ofNat (k + 1) + sumRec k

/-- The local context of the summing closure once its parameters hold
`n = k` and `acc = a` (the exact association list the binding and rebinding
loops produce). -/
def trampCtx (k : Nat) (a : Int) : Context :=
  ⟨baseBindings, [("acc", .integer a), ("n", .integer (Int.ofNat k))]⟩

/-- With `n = 0` the trampoline evaluates the body once — the condition
`(= n 0)` holds, the body yields `acc`, which is not a `recur` list — and
returns it.  Fuel `g + 7` for any `g`: 7 covers the depth of one body
evaluation. -/
theorem tramp_base (g : Nat) (a : Int) :
    run (g + 7) (.jTramp ["n", "acc"] (trampCtx 0 a) sumBody) =
      .ok (trampCtx 0 a) (.integer a) := rfl

/-- One trampoline unfolding on a body result that is a `recur` list with
the right arity: pop `recur`, move to evaluating the remaining elements in
the current local context (`eval.rs` lines 132-143). -/
theorem run_tramp_recur (fuel : Nat) (ps : List String) (cL : Context) (body : Value)
    (c' : Context) (es : List Value)
    (h : run fuel (.jEval true cL body) = .ok c' (.vlist (.symbol "recur" :: es)))
    (heq : es.length = ps.length) :
    run (fuel + 1) (.jTramp ps cL body) = run fuel (.jRecurArgs ps body c' es []) := by
  simp only [run]
  rw [h]
  simp [isRecurHead, heq]

/-- One step of the `recur`-argument loop: evaluate the next element in the
current local context and append its value (`eval.rs` lines 139-143). -/
theorem run_recur_arg_step (fuel : Nat) (ps : List String) (body : Value) (cL : Context)
    (e : Value) (rest acc : List Value) (c' : Context) (v : Value)
    (h : run fuel (.jEval true cL e) = .ok c' v) :
    run (fuel + 1) (.jRecurArgs ps body cL (e :: rest) acc) =
      run fuel (.jRecurArgs ps body c' rest (acc ++ [v])) := by
  simp only [run]
  rw [h]

/-- Once every `recur` argument is evaluated, the parameters are rebound
positionally in place and the trampoline loop re-runs
(`eval.rs` lines 144-148). -/
theorem run_recur_rebind (fuel : Nat) (ps : List String) (body : Value) (cL : Context)
    (acc : List Value) :
    run (fuel + 1) (.jRecurArgs ps body cL [] acc) =
      run fuel (.jTramp ps ⟨cL.bindings,
        (ps.zip acc).foldl (fun env p => insertVar env p.1 p.2) cL.localEnv⟩ body) := rfl

/-- With `n = j + 1` the body of the summing closure evaluates to the
verbatim `recur` list (the condition `(= n 0)` is false). -/
theorem tramp_body_step (g : Nat) (j : Nat) (a : Int) :
    run (g + 10) (.jEval true (trampCtx (j + 1) a) sumBody) =
      .ok (trampCtx (j + 1) a)
        (.vlist [.symbol "recur", .vlist [.symbol "+", .symbol "n", .integer (-1)],
          .vlist [.symbol "+", .symbol "acc", .symbol "n"]]) := rfl

/-- Value of the first `recur` argument `(+ n -1)`: the `i64` sum of the
current `n` and `-1`, each addition reduced with `wrap64`. -/
theorem tramp_arg1 (g : Nat) (j : Nat) (a : Int) :
    run (g + 5) (.jEval true (trampCtx (j + 1) a)
        (.vlist [.symbol "+", .symbol "n", .integer (-1)])) =
      .ok (trampCtx (j + 1) a)
        (.integer (wrap64 (wrap64 (0 + Int.ofNat (j + 1)) + -1))) := rfl

/-- Value of the second `recur` argument `(+ acc n)`: the `i64` sum of the
current `acc` and `n`. -/
theorem tramp_arg2 (g : Nat) (j : Nat) (a : Int) :
    run (g + 5) (.jEval true (trampCtx (j + 1) a)
        (.vlist [.symbol "+", .symbol "acc", .symbol "n"])) =
      .ok (trampCtx (j + 1) a)
        (.integer (wrap64 (wrap64 (0 + a) + Int.ofNat (j + 1)))) := rfl

/-- With `n = j + 1` one trampoline iteration evaluates the body to the
verbatim `recur` list, evaluates its two argument forms in the current local
context (each `+` reducing its `i64` accumulator with `wrap64`), rebinds `n`
and `acc` in place and loops, consuming exactly 4 fuel. -/
theorem tramp_step (g : Nat) (j : Nat) (a : Int) :
    run (g + 11) (.jTramp ["n", "acc"] (trampCtx (j + 1) a) sumBody) =
      run (g + 7) (.jTramp ["n", "acc"]
        ⟨baseBindings,
          [("acc", .integer (wrap64 (wrap64 (0 + a) + Int.ofNat (j + 1)))),
           ("n", .integer (wrap64 (wrap64 (0 + Int.ofNat (j + 1)) + -1)))]⟩ sumBody) := by
  have t1 := run_tramp_recur (g + 10) ["n", "acc"] (trampCtx (j + 1) a) sumBody
    (trampCtx (j + 1) a)
    [.vlist [.symbol "+", .symbol "n", .integer (-1)],
     .vlist [.symbol "+", .symbol "acc", .symbol "n"]]
    (tramp_body_step g j a) rfl
  have t2 := run_recur_arg_step (g + 9) ["n", "acc"] sumBody (trampCtx (j + 1) a)
    (.vlist [.symbol "+", .symbol "n", .integer (-1)])
    [.vlist [.symbol "+", .symbol "acc", .symbol "n"]] []
    (trampCtx (j + 1) a) (.integer (wrap64 (wrap64 (0 + Int.ofNat (j + 1)) + -1)))
    (tramp_arg1 (g + 4) j a)
  have t3 := run_recur_arg_step (g + 8) ["n", "acc"] sumBody (trampCtx (j + 1) a)
    (.vlist [.symbol "+", .symbol "acc", .symbol "n"]) []
    [.integer (wrap64 (wrap64 (0 + Int.ofNat (j + 1)) + -1))]
    (trampCtx (j + 1) a) (.integer (wrap64 (wrap64 (0 + a) + Int.ofNat (j + 1))))
    (tramp_arg2 (g + 3) j a)
  have t4 := run_recur_rebind (g + 7) ["n", "acc"] sumBody (trampCtx (j + 1) a)
    [.integer (wrap64 (wrap64 (0 + Int.ofNat (j + 1)) + -1)),
     .integer (wrap64 (wrap64 (0 + a) + Int.ofNat (j + 1)))]
  simp only [List.nil_append] at t2
  simp only [List.cons_append, List.nil_append] at t3
  have t1' : run (g + 11) (.jTramp ["n", "acc"] (trampCtx (j + 1) a) sumBody) =
      run (g + 10) (.jRecurArgs ["n", "acc"] sumBody (trampCtx (j + 1) a)
        [.vlist [.symbol "+", .symbol "n", .integer (-1)],
         .vlist [.symbol "+", .symbol "acc", .symbol "n"]] []) := t1
  have t2' : run (g + 10) (.jRecurArgs ["n", "acc"] sumBody (trampCtx (j + 1) a)
      [.vlist [.symbol "+", .symbol "n", .integer (-1)],
       .vlist [.symbol "+", .symbol "acc", .symbol "n"]] []) =
      run (g + 9) (.jRecurArgs ["n", "acc"] sumBody (trampCtx (j + 1) a)
        [.vlist [.symbol "+", .symbol "acc", .symbol "n"]]
        [.integer (wrap64 (wrap64 (0 + Int.ofNat (j + 1)) + -1))]) := t2
  have t3' : run (g + 9) (.jRecurArgs ["n", "acc"] sumBody (trampCtx (j + 1) a)
      [.vlist [.symbol "+", .symbol "acc", .symbol "n"]]
      [.integer (wrap64 (wrap64 (0 + Int.ofNat (j + 1)) + -1))]) =
      run (g + 8) (.jRecurArgs ["n", "acc"] sumBody (trampCtx (j + 1) a) []
        [.integer (wrap64 (wrap64 (0 + Int.ofNat (j + 1)) + -1)),
         .integer (wrap64 (wrap64 (0 + a) + Int.ofNat (j + 1)))]) := t3
  have t4' : run (g + 8) (.jRecurArgs ["n", "acc"] sumBody (trampCtx (j + 1) a) []
      [.integer (wrap64 (wrap64 (0 + Int.ofNat (j + 1)) + -1)),
       .integer (wrap64 (wrap64 (0 + a) + Int.ofNat (j + 1)))]) =
      run (g + 7) (.jTramp ["n", "acc"]
        ⟨baseBindings,
          [("acc", .integer (wrap64 (wrap64 (0 + a) + Int.ofNat (j + 1)))),
           ("n", .integer (wrap64 (wrap64 (0 + Int.ofNat (j + 1)) + -1)))]⟩ sumBody) := t4
  exact t1'.trans (t2'.trans (t3'.trans t4'))

/-- The sum is nonnegative. -/
theorem sumRec_nonneg (n : Nat) : 0 ≤ sumRec n := by
  induction n with
  | zero => simp [sumRec]
  | succ k ih =>
    rw [sumRec, Int.ofNat_eq_natCast]
    omega

/-- Closed form of the non-tail recursive sum. -/
theorem sumRec_closed (n : Nat) : 2 * sumRec n = (n : Int) * (n + 1) := by
  induction n with
  | zero => simp [sumRec]
  | succ k ih =>
    rw [sumRec, Int.ofNat_eq_natCast]
    push_cast
    push_cast at ih
    linear_combination ih

set_option maxRecDepth 2000 in
/-- The trampoline of the summing closure computes the running `i64` sum:
from `n = k` (an `i64`-representable count) and an in-range `acc = a` it
terminates, within fuel linear in `k` — the host stack usage of the Rust
loop is constant — with value `wrap64 (a + sumRec k)`, the two's-complement
reduction of the mathematical running total. -/
theorem tramp_sum (k : Nat) : ∀ (a : Int) (g : Nat),
    -2 ^ 63 ≤ a → a < 2 ^ 63 → (k : Int) < 2 ^ 63 →
    run (g + (4 * k + 7)) (.jTramp ["n", "acc"] (trampCtx k a) sumBody) =
      .ok (trampCtx 0 (wrap64 (a + sumRec k))) (.integer (wrap64 (a + sumRec k))) := by
  induction k with
  | zero =>
    intro a g h1 h2 _hk
    have hz : wrap64 (a + sumRec 0) = a := by
      rw [show sumRec 0 = 0 from rfl, Int.add_zero]
      exact wrap64_eq_self a h1 h2
    rw [hz]
    exact tramp_base g a
  | succ j ih =>
    intro a g h1 h2 hk
    have hfuel : g + (4 * (j + 1) + 7) = (g + 4 * j) + 11 := by ring
    rw [hfuel, tramp_step]
    have hn : wrap64 (wrap64 (0 + Int.ofNat (j + 1)) + -1) = Int.ofNat j := by
      simp only [Int.ofNat_eq_natCast] at hk ⊢
      unfold wrap64
      omega
    rw [hn]
    have hA1 := (wrap64_range (wrap64 (0 + a) + Int.ofNat (j + 1))).1
    have hA2 := (wrap64_range (wrap64 (0 + a) + Int.ofNat (j + 1))).2
    have hj : (j : Int) < 2 ^ 63 := by
      push_cast at hk
      omega
    have hIH := ih (wrap64 (wrap64 (0 + a) + Int.ofNat (j + 1))) g hA1 hA2 hj
    have hval : wrap64 (wrap64 (wrap64 (0 + a) + Int.ofNat (j + 1)) + sumRec j) =
        wrap64 (a + sumRec (j + 1)) := by
      have hs : sumRec (j + 1) = Int.ofNat (j + 1) + sumRec j := by
        simp [sumRec]
      rw [hs]
      simp only [Int.ofNat_eq_natCast]
      unfold wrap64
      omega
    simp only [hval] at hIH
    exact hIH

/-- Evaluating the example call reduces, after creating the closure and
binding `n` and `acc`, to the trampoline from the canonical local context;
the result context handed back to the caller is the (unchanged) top-level
context. -/
theorem sum_entry (g : Nat) (n : Nat) :
    run (g + 5) (.jEval false ctx0 (sumProg n)) =
      (match run g (.jTramp ["n", "acc"] (trampCtx n 0) sumBody) with
       | .ok _ v => .ok ctx0 v
       | .err _ m => .err ctx0 m
       | r => r) := rfl

/-- The example call at any `i64`-representable `n`: the program returns the
wrapped `i64` running sum `wrap64 (sumRec n)`. -/
theorem sum_program_result (n : Nat) (hn : (n : Int) < 2 ^ 63) :
    run (4 * n + 12) (.jEval false ctx0 (sumProg n)) =
      .ok ctx0 (.integer (wrap64 (sumRec n))) := by
  have h1 : 4 * n + 12 = (4 * n + 7) + 5 := by omega
  rw [h1, sum_entry]
  have h2 : 4 * n + 7 = 0 + (4 * n + 7) := by omega
  have ht := tramp_sum n 0 0 (by norm_num) (by norm_num) hn
  rw [h2, ht]
  simp

/-- C3 counterexample: at `n = 4294967296` (a valid `i64` literal) the
summing closure does not return the sum `0 + 1 + ... + n`: the true sum is
`2^63 + 2^31`, which overflows the `i64` accumulator of `OpsEnv::add`, so
the program returns the wrapped value `2^31 - 2^63` instead (a debug build
panics at the overflowing addition). -/
theorem sum_overflow_counterexample :
    run (4 * 4294967296 + 12) (.jEval false ctx0 (sumProg 4294967296)) =
      .ok ctx0 (.integer (-9223372034707292160)) ∧
    sumRec 4294967296 ≠ -9223372034707292160 := by
  have hs : sumRec 4294967296 = 9223372039002259456 := by
    have h := sumRec_closed 4294967296
    norm_num at h
    omega
  constructor
  · have h := sum_program_result 4294967296 (by norm_num)
    rw [hs] at h
    rw [show wrap64 9223372039002259456 = -9223372034707292160 from by
      unfold wrap64; decide] at h
    exact h
  · rw [hs]
    norm_num

/-- C3: the closure trampoline (`eval.rs` lines 126-159).  On a body result
that is a list headed by the symbol `recur`: a remaining-element count
different from the parameter count is an arity error attributed to `recur`;
otherwise the remaining elements are evaluated in the current local context,
the parameters are rebound positionally and the loop re-runs.  Any other
result terminates the loop and is returned.  Consequently the summing
closure `(fn (n acc) (if (= n 0) acc (recur (+ n -1) (+ acc n))))` applied
to an `i64`-representable `n` and `0` returns, within fuel linear in `n`,
the wrapped `i64` sum `wrap64 (sumRec n)` — and whenever the mathematical
sum `sumRec n = n + (n-1) + ... + 0` fits in `i64` (in particular in the
spec's `n = 100000` test) that value is exactly `sumRec n`, the equivalent
non-tail recursive sum. -/
theorem trampoline_spec :
    (∀ fuel ps cL body c' (es : List Value),
      run fuel (.jEval true cL body) = .ok c' (.vlist (.symbol "recur" :: es)) →
      es.length ≠ ps.length →
      run (fuel + 1) (.jTramp ps cL body) =
        .err c' ("Wrong number of arguments passed to 'recur'. Expected " ++
          toString ps.length ++ ", got " ++ toString es.length)) ∧
    (∀ fuel ps cL body c' (es : List Value),
      run fuel (.jEval true cL body) = .ok c' (.vlist (.symbol "recur" :: es)) →
      es.length = ps.length →
      run (fuel + 1) (.jTramp ps cL body) = run fuel (.jRecurArgs ps body c' es [])) ∧
    (∀ fuel ps body cL e (rest acc : List Value) c' v,
      run fuel (.jEval true cL e) = .ok c' v →
      run (fuel + 1) (.jRecurArgs ps body cL (e :: rest) acc) =
        run fuel (.jRecurArgs ps body c' rest (acc ++ [v]))) ∧
    (∀ fuel ps body cL (acc : List Value),
      run (fuel + 1) (.jRecurArgs ps body cL [] acc) =
        run fuel (.jTramp ps ⟨cL.bindings,
          (ps.zip acc).foldl (fun env p => insertVar env p.1 p.2) cL.localEnv⟩ body)) ∧
    (∀ fuel ps cL body c' v,
      run fuel (.jEval true cL body) = .ok c' v → recurHeaded v = false →
      run (fuel + 1) (.jTramp ps cL body) = .ok c' v) ∧
    (∀ n : Nat, (n : Int) < 2 ^ 63 →
      run (4 * n + 12) (.jEval false ctx0 (sumProg n)) =
        .ok ctx0 (.integer (wrap64 (sumRec n)))) ∧
    (∀ n : Nat, (n : Int) < 2 ^ 63 → sumRec n < 2 ^ 63 →
      run (4 * n + 12) (.jEval false ctx0 (sumProg n)) =
        .ok ctx0 (.integer (sumRec n))) := by
  refine ⟨fun fuel ps cL body c' es h hne => ?_,
    fun fuel ps cL body c' es h heq => ?_,
    fun fuel ps body cL e rest acc c' v h => ?_,
    fun fuel ps body cL acc => rfl,
    fun fuel ps cL body c' v h hv => ?_,
    fun n hn => sum_program_result n hn,
    fun n hn hs => ?_⟩
  · simp only [run]
    rw [h]
    simp [isRecurHead, hne]
  · simp only [run]
    rw [h]
    simp [isRecurHead, heq]
  · simp only [run]
    rw [h]
  · simp only [run]
    rw [h]
    cases v with
    | vlist es =>
      have hes : isRecurHead es = false := hv
      simp [hes]
    | _ => rfl
  · have h := sum_program_result n hn
    have hnn := sumRec_nonneg n
    rw [wrap64_eq_self (sumRec n) (by omega) hs] at h
    exact h

/-- C3 witness: a body yielding `(recur)` under 2 parameters triggers the
`recur` arity error naming expected 2, got 0, and the summing program at
`n = 2` returns `Integer 3` through the fits-in-i64 part. -/
theorem trampoline_spec_witness :
    run 2 (.jTramp ["n", "acc"] (trampCtx 0 0) (.vlist [.symbol "recur"])) =
      .err (trampCtx 0 0)
        "Wrong number of arguments passed to 'recur'. Expected 2, got 0" ∧
    run (4 * 2 + 12) (.jEval false ctx0 (sumProg 2)) = .ok ctx0 (.integer 3) := by
  constructor
  · have h := trampoline_spec.1 1 ["n", "acc"] (trampCtx 0 0) (.vlist [.symbol "recur"])
      (trampCtx 0 0) [] rfl (by decide)
    exact h
  · have h := trampoline_spec.2.2.2.2.2.2 2 (by norm_num) (by decide)
    exact h

end RLispi
